import Mathlib

/-!
Shallow embedding of the godocdash crawl-parse-index pipeline,
from src/main.go and src/package.go.

HTML documents are modelled by exactly the features the code inspects:
heading nodes carry their tag, text, optional id attribute and the
optional href of their nested permalink anchor; preformatted blocks
carry their text and their inner spans with optional id attributes.
Database effects are modelled as explicit row lists and event traces.
-/

/-- A heading node as the extractor sees it: tag (h2 or h3), text,
optional id attribute, and the optional href of the permalink anchor
found nested inside it. -/
structure HeadingNode where
  tag : String
  text : String
  id : Option String
  permalinkHref : Option String
  deriving DecidableEq, Repr

/-- An inner span of a preformatted block, with its optional id attribute. -/
structure SpanNode where
  id : Option String
  deriving DecidableEq, Repr

/-- A preformatted code block: its text and its inner spans. -/
structure PreNode where
  text : String
  spans : List SpanNode
  deriving DecidableEq, Repr

/-- A parsed package documentation page, restricted to the node kinds the
extractor queries: heading nodes and preformatted blocks, in document order. -/
structure Document where
  headings : List HeadingNode
  pres : List PreNode
  deriving DecidableEq, Repr

/-- doc.Find for a heading selector: the heading nodes with that tag,
in document order. -/
def Document.find (doc : Document) (selector : String) : List HeadingNode :=
  doc.headings.filter (fun h => h.tag == selector)

/-- packageIndex (src/package.go): one extracted symbol, its anchor name and
the path fragment where its documentation lives. -/
structure packageIndex where
  Name : String
  Path : String
  deriving DecidableEq, Repr

/-- packageInfo (src/package.go): one crawled package record. The error is
modelled as an optional message. -/
structure packageInfo where
  Name : String
  Err : Option String
  Consts : List packageIndex
  Variables : List packageIndex
  Funcs : List packageIndex
  Types : List packageIndex
  deriving DecidableEq, Repr

/-- The shared body of the heading callbacks in ParseType and ParseFunc:
if the heading text starts with the sign, and the heading has an id
attribute and a permalink href, produce the entry; otherwise skip the node. -/
def headingEntry (sign : String) (selection : HeadingNode) : Option packageIndex :=
  if selection.text.startsWith sign then
    match selection.id, selection.permalinkHref with
    | some name, some href => some ⟨name, href⟩
    | _, _ => none
  else none

/-- ParseType (src/package.go lines 84 to 104): scan the h2 nodes whose text
starts with the sign "type ". -/
def ParseType (doc : Document) : List packageIndex :=
  (doc.find "h2").filterMap (headingEntry "type ")

/-- parseFuncSelectors (src/package.go lines 12 to 15): h2 for functions
without a receiver type, h3 for functions with one. -/
def parseFuncSelectors : List String := ["h2", "h3"]

/-- ParseFunc (src/package.go lines 106 to 129): for each selector in
parseFuncSelectors, scan the matching nodes whose text starts with "func ",
appending entries in selector order. -/
def ParseFunc (doc : Document) : List packageIndex :=
  (parseFuncSelectors.map
    (fun selector => (doc.find selector).filterMap (headingEntry "func "))).flatten

/-- The inner span scan of ParseConstAndVariable: every id-bearing span of
the block yields an entry named by the id, with fragment "#" ++ id. -/
def spanEntries (selection : PreNode) : List packageIndex :=
  selection.spans.filterMap (fun s =>
    match s.id with
    | some id => some ⟨id, "#" ++ id⟩
    | none => none)

/-- ParseConstAndVariable (src/package.go lines 131 to 158): fold over the
pre blocks; a block whose text starts with "const" appends its span entries
to Consts, otherwise a block whose text starts with "var" appends them to
Variables, otherwise the block is ignored. Returns (Consts, Variables). -/
def ParseConstAndVariable (doc : Document) : List packageIndex × List packageIndex :=
  doc.pres.foldl
    (fun acc selection =>
      if selection.text.startsWith "const" then
        (acc.1 ++ spanEntries selection, acc.2)
      else if selection.text.startsWith "var" then
        (acc.1, acc.2 ++ spanEntries selection)
      else acc)
    ([], [])

/-- IsEmpty (src/package.go lines 55 to 60): the four symbol list lengths
sum to at most zero. -/
def packageInfo.IsEmpty (info : packageInfo) : Bool :=
  decide ((info.Consts.length + info.Variables.length +
    info.Funcs.length + info.Types.length) ≤ 0)

/-- Parse (src/package.go lines 62 to 82): run the three sub-scans against
the same read-only document and store their results; the WaitGroup makes all
three complete before Parse returns the populated record. -/
def packageInfo.Parse (info : packageInfo) (doc : Document) : packageInfo :=
  ⟨info.Name, info.Err,
    (ParseConstAndVariable doc).1, (ParseConstAndVariable doc).2,
    ParseFunc doc, ParseType doc⟩

/-- The outcome Print (src/package.go lines 31 to 53) reports for a record. -/
inductive PrintOutcome
  | errorReport
  | notAPackage
  | contents
  deriving DecidableEq, Repr

/-- Print (src/package.go lines 31 to 53): an error report when Err is set,
the not-a-package skip message when IsEmpty, otherwise the contents listing. -/
def packageInfo.printOutcome (info : packageInfo) : PrintOutcome :=
  match info.Err with
  | some _ => PrintOutcome.errorReport
  | none => if info.IsEmpty then PrintOutcome.notAPackage else PrintOutcome.contents

/-- Go path.Join: the nonempty elements joined with "/". path.Clean, which
Go applies on top, is the identity on the slash-free dot-free segments the
crawler passes in. -/
def pathJoin (elems : List String) : String :=
  String.intercalate "/" (elems.filter (fun e => e ≠ ""))

/-- getDocumentPath (src/main.go lines 466 to 468). -/
def getDocumentPath (packageName : String) : String :=
  pathJoin ["pkg", packageName, "index.html"]

/-- One row of the searchIndex table, keyed (name, type, path). -/
structure IndexRow where
  name : String
  entryType : String
  path : String
  deriving DecidableEq, Repr

/-- writeIndexes (src/package.go lines 185 to 196, likewise src/main.go
lines 164 to 176): one insert per symbol of the list, in order, named
info.Name ++ "." ++ index.Name and pathed getDocumentPath of info.Name
followed by index.Path. Returns the inserted rows in execution order. -/
def packageInfo.writeIndexes (info : packageInfo) (typeName : String) :
    List packageIndex → List IndexRow
  | [] => []
  | index :: rest =>
    ⟨info.Name ++ "." ++ index.Name, typeName, getDocumentPath info.Name ++ index.Path⟩
      :: info.writeIndexes typeName rest

/-- WriteInsert (src/package.go lines 160 to 183): the Package row first,
then the Type, Function, Constant and Variable rows in that order. -/
def packageInfo.WriteInsert (info : packageInfo) : List IndexRow :=
  ⟨info.Name, "Package", getDocumentPath info.Name⟩
    :: (info.writeIndexes "Type" info.Types
      ++ info.writeIndexes "Function" info.Funcs
      ++ info.writeIndexes "Constant" info.Consts
      ++ info.writeIndexes "Variable" info.Variables)

/-- WriteDB (src/main.go lines 143 to 162): the Type, Function, Constant and
Variable rows in that order; no Package row is inserted on this path. -/
def packageInfo.WriteDB (info : packageInfo) : List IndexRow :=
  info.writeIndexes "Type" info.Types
    ++ info.writeIndexes "Function" info.Funcs
    ++ info.writeIndexes "Constant" info.Consts
    ++ info.writeIndexes "Variable" info.Variables

/-- getPackages (src/main.go lines 208 to 228), applied to the href
attributes of the anchors found on the package index page (none for an
anchor without the attribute): keep a listed path only when its text before
the first "/" contains a dot; standard library entries are discarded. -/
def getPackages (hrefs : List (Option String)) : List String :=
  hrefs.filterMap (fun attr =>
    match attr with
    | none => none
    | some packageName =>
      if ((packageName.splitOn "/").headD "").contains '.' then some packageName
      else none)

/-- One row of a static-asset directory listing (a tbody tr node): how many
child nodes it has, and the href of its first anchor if any. -/
structure DirEntry where
  childrenCount : Nat
  href : Option String
  deriving DecidableEq, Repr

/-- The documentation server as the asset crawler sees it: which request
URLs answer with a parseable directory listing, and with which rows. -/
def AssetServer : Type := String → Option (List DirEntry)

/-- The per-row action of the grabDirectory callback (src/main.go lines 322
to 349): skip rows with fewer than two children (the parent navigation row)
and rows whose anchor has no href; download an href ending in ".css" or
".js" from host ++ "/" ++ relPath ++ href, writing it at relPath ++ href;
treat any other row as a sub-directory to descend into at that same url. -/
inductive EntryAction
  | skip
  | download (url relFile : String)
  | descend (url : String)
  deriving DecidableEq, Repr

/-- Go strings.HasSuffix, on the character sequences of the strings. -/
def hasSuffix (s suffix : String) : Bool :=
  suffix.data.isSuffixOf s.data

/-- The decision grabDirectory takes for one listing row. -/
def entryAction (host relPath : String) (selection : DirEntry) : EntryAction :=
  if selection.childrenCount < 2 then EntryAction.skip
  else
    match selection.href with
    | none => EntryAction.skip
    | some href =>
      let url := host ++ "/" ++ relPath ++ href
      if hasSuffix href ".css" || hasSuffix href ".js" then
        EntryAction.download url (relPath ++ href)
      else EntryAction.descend url

/-- grabDirectory (src/main.go lines 302 to 351), with a fuel bound on the
recursion depth. It requests host ++ "/" ++ relPath; on a listing answer it
folds over the rows, downloading stylesheet and script rows and recursing
into the rest. The recursive call passes the absolute url built for the row
as the next relPath argument, exactly as the source does. Returns the
requested URLs and the relative paths written to disk, in order. -/
def grabDirectory (server : AssetServer) : Nat → String → String → List String × List String
  | 0, _, _ => ([], [])
  | fuel + 1, host, relPath =>
    let fetchURL := host ++ "/" ++ relPath
    match server fetchURL with
    | none => ([fetchURL], [])
    | some listing =>
      listing.foldl
        (fun acc selection =>
          match entryAction host relPath selection with
          | EntryAction.skip => acc
          | EntryAction.download url relFile => (acc.1 ++ [url], acc.2 ++ [relFile])
          | EntryAction.descend url =>
            let sub := grabDirectory server fuel host url
            (acc.1 ++ sub.1, acc.2 ++ sub.2))
        ([fetchURL], [])

/-- Whether pat occurs as a contiguous run of text: true when pat is a
character-sequence pattern starting at some position of the text. -/
def containsAux (pat : List Char) : List Char → Bool
  | [] => pat.isEmpty
  | c :: rest => pat.isPrefixOf (c :: rest) || containsAux pat rest

/-- Go strings.Contains for a multi-character pattern, on the character
sequences of the strings. -/
def containsSeq (s pat : String) : Bool :=
  containsAux pat.data s.data

/-- The observable steps of grabPackage (src/main.go lines 246 to 292). -/
inductive GrabEvent
  | fetchPage
  | replaceLinksStep
  | writeFileStep
  | parseStep
  | writeDBStep
  deriving DecidableEq, Repr

/-- The ordered steps grabPackage performs: the page fetch; then, unless the
fetch failed or the page is a directory listing (a div.pkg-dir is present),
replaceLinks on the document, the mirrored-page write, info.Parse, and
info.WriteDB, in source order. -/
def grabPackageEvents (fetchOk : Bool) (hasPkgDir : Bool) : List GrabEvent :=
  if !fetchOk then [GrabEvent.fetchPage]
  else if hasPkgDir then [GrabEvent.fetchPage]
  else [GrabEvent.fetchPage, GrabEvent.replaceLinksStep, GrabEvent.writeFileStep,
    GrabEvent.parseStep, GrabEvent.writeDBStep]

/-- A database API call of the crawl: the two schema statements of createDB,
an insert execution, or the transaction calls Begin and Commit. -/
inductive DBEvent
  | execCreateTable
  | execCreateIndex
  | execInsert (name typeName path : String)
  | beginTx
  | commitTx
  deriving DecidableEq, Repr

/-- The statements createDB (src/main.go lines 386 to 409) executes:
CREATE TABLE searchIndex, then CREATE UNIQUE INDEX anchor on
(name, type, path). -/
def createDBTrace : List DBEvent := [DBEvent.execCreateTable, DBEvent.execCreateIndex]

/-- The database calls of one package task: a direct db.Exec insert per
WriteDB row, in order. -/
def writeDBTrace (info : packageInfo) : List DBEvent :=
  info.WriteDB.map (fun r => DBEvent.execInsert r.name r.entryType r.path)

/-- The database calls of the whole crawl in src/main.go: createDB, then the
per-package inserts. The concurrent package goroutines interleave their
insert events, but every call any of them makes is a plain db.Exec; the
transaction API is never invoked, so the trace is interleaving-independent
for any property that ignores the order among inserts. -/
def crawlDBTrace (infos : List packageInfo) : List DBEvent :=
  createDBTrace ++ (infos.map writeDBTrace).flatten

/-- True exactly on the transaction events Begin and Commit. -/
def isTxEvent : DBEvent → Bool
  | DBEvent.beginTx => true
  | DBEvent.commitTx => true
  | _ => false

/-- True exactly on Commit. -/
def isCommitTx : DBEvent → Bool
  | DBEvent.commitTx => true
  | _ => false

/-- True exactly on insert executions. -/
def isExecInsert : DBEvent → Bool
  | DBEvent.execInsert _ _ _ => true
  | _ => false

/-- The sqlite index file state: the searchIndex rows in insertion order.
The id primary key is the row position. -/
structure DBState where
  rows : List IndexRow
  deriving DecidableEq, Repr

/-- createDB (src/main.go lines 386 to 409): os.Remove deletes any prior
index file, then the searchIndex table and the unique anchor index are
created, so whatever the prior file held, the run starts from an empty
table. -/
def createDB (priorFile : Option DBState) : DBState :=
  match priorFile with
  | _ => ⟨[]⟩

/-- One execution of INSERT OR IGNORE INTO searchIndex(name, type, path)
under the unique anchor index on (name, type, path): a row whose triple is
already present is ignored without an error, a fresh triple is appended. -/
def execInsertOrIgnore (st : DBState) (r : IndexRow) : Except String DBState :=
  if r ∈ st.rows then Except.ok st else Except.ok ⟨st.rows ++ [r]⟩

/-- The row the specification prescribes for one symbol of a package: named
importPath ++ "." ++ symbolName under the given entry type, and pathed as
the document path of the import path followed by the symbol relative path. -/
def specSymbolRow (importPath typeName : String) (symbol : packageIndex) : IndexRow :=
  ⟨importPath ++ "." ++ symbol.Name, typeName, getDocumentPath importPath ++ symbol.Path⟩

/-- The Constant entries one pre block contributes, per the block text. -/
def constContribution (selection : PreNode) : List packageIndex :=
  if selection.text.startsWith "const" then spanEntries selection else []

/-- The Variable entries one pre block contributes, per the block text. -/
def varContribution (selection : PreNode) : List packageIndex :=
  if selection.text.startsWith "const" then []
  else if selection.text.startsWith "var" then spanEntries selection
  else []

theorem writeIndexes_eq_map (info : packageInfo) (typeName : String)
    (l : List packageIndex) :
    info.writeIndexes typeName l = l.map (specSymbolRow info.Name typeName) := by
  induction l with
  | nil => simp [packageInfo.writeIndexes]
  | cons a t ih => simp [packageInfo.writeIndexes, specSymbolRow, ih]

/-- C1: for every record handed to WriteInsert, the emitted inserts are the
row (importPath, Package, documentPath importPath) first, then exactly one
row per symbol of each of the four lists Types, Functions, Constants,
Variables, each named importPath ++ "." ++ symbolName and pathed as the
document path of the import path followed by the symbol relative path. -/
theorem writeInsert_rows (info : packageInfo) :
    info.WriteInsert =
      ⟨info.Name, "Package", getDocumentPath info.Name⟩
        :: (info.Types.map (specSymbolRow info.Name "Type")
          ++ info.Funcs.map (specSymbolRow info.Name "Function")
          ++ info.Consts.map (specSymbolRow info.Name "Constant")
          ++ info.Variables.map (specSymbolRow info.Name "Variable")) := by
  simp [packageInfo.WriteInsert, writeIndexes_eq_map]

/-- C2: a crawled record whose four symbol lists are all empty is classified
empty, reported as not a package, and its WriteDB persistence path inserts
no index row at all. -/
theorem empty_record_not_persisted (info : packageInfo)
    (hc : info.Consts = []) (hv : info.Variables = [])
    (hf : info.Funcs = []) (ht : info.Types = []) (he : info.Err = none) :
    info.IsEmpty = true ∧ info.printOutcome = PrintOutcome.notAPackage ∧
      info.WriteDB = [] := by
  have hempty : info.IsEmpty = true := by
    simp [packageInfo.IsEmpty, hc, hv, hf, ht]
  refine ⟨hempty, ?_, ?_⟩
  · simp [packageInfo.printOutcome, he, hempty]
  · simp [packageInfo.WriteDB, hc, hv, hf, ht, packageInfo.writeIndexes]

/-- Witness for C2 at a concrete symbol-free record. -/
theorem empty_record_not_persisted_witness :
    (⟨"example.com/x", none, [], [], [], []⟩ : packageInfo).Consts = [] ∧
    (⟨"example.com/x", none, [], [], [], []⟩ : packageInfo).Variables = [] ∧
    (⟨"example.com/x", none, [], [], [], []⟩ : packageInfo).Funcs = [] ∧
    (⟨"example.com/x", none, [], [], [], []⟩ : packageInfo).Types = [] ∧
    (⟨"example.com/x", none, [], [], [], []⟩ : packageInfo).Err = none ∧
    ((⟨"example.com/x", none, [], [], [], []⟩ : packageInfo).IsEmpty = true ∧
      (⟨"example.com/x", none, [], [], [], []⟩ : packageInfo).printOutcome =
        PrintOutcome.notAPackage ∧
      (⟨"example.com/x", none, [], [], [], []⟩ : packageInfo).WriteDB = []) :=
  ⟨rfl, rfl, rfl, rfl, rfl,
    empty_record_not_persisted ⟨"example.com/x", none, [], [], [], []⟩ rfl rfl rfl rfl rfl⟩

/-- C9: getPackages keeps exactly the listed import paths whose leading
segment, the text before the first "/", contains a dot; every other listed
path is discarded, so it is never queued for crawling. -/
theorem getPackages_mem_iff (hrefs : List (Option String)) (p : String) :
    p ∈ getPackages hrefs ↔
      some p ∈ hrefs ∧ ((p.splitOn "/").headD "").contains '.' = true := by
  unfold getPackages
  rw [List.mem_filterMap]
  constructor
  · rintro ⟨attr, hmem, hsome⟩
    cases attr with
    | none => simp at hsome
    | some q =>
      simp only at hsome
      split at hsome
      · next hq =>
        cases hsome
        exact ⟨hmem, by simpa using hq⟩
      · simp at hsome
  · rintro ⟨hmem, hdot⟩
    refine ⟨some p, hmem, ?_⟩
    simp at hdot
    simp [hdot]

theorem parseConstAndVariable_foldl_general (l : List PreNode)
    (acc : List packageIndex × List packageIndex) :
    l.foldl
      (fun acc selection =>
        if selection.text.startsWith "const" then
          (acc.1 ++ spanEntries selection, acc.2)
        else if selection.text.startsWith "var" then
          (acc.1, acc.2 ++ spanEntries selection)
        else acc) acc
      = (acc.1 ++ l.flatMap constContribution, acc.2 ++ l.flatMap varContribution) := by
  induction l generalizing acc with
  | nil => simp
  | cons b t ih =>
    rw [List.foldl_cons, ih]
    by_cases hc : b.text.startsWith "const"
    · simp [constContribution, varContribution, hc, List.append_assoc]
    · by_cases hv : b.text.startsWith "var"
      · simp [constContribution, varContribution, hc, hv, List.append_assoc]
      · simp [constContribution, varContribution, hc, hv]

/-- C10: the pre-block scan partitions block contributions: a block whose
text starts with "const" sends its id-bearing spans to the Consts list, a
block starting with "var" but not "const" sends them to the Variables list,
any other block contributes nothing, and no block contributes to both. -/
theorem parseConstAndVariable_partition (doc : Document) :
    ParseConstAndVariable doc =
      (doc.pres.flatMap constContribution, doc.pres.flatMap varContribution) ∧
    ∀ selection : PreNode,
      constContribution selection = [] ∨ varContribution selection = [] := by
  constructor
  · rw [ParseConstAndVariable, parseConstAndVariable_foldl_general]
    simp
  · intro s
    by_cases hc : s.text.startsWith "const"
    · right
      simp [varContribution, hc]
    · left
      simp [constContribution, hc]

theorem headingEntry_eq_some (sign : String) (h : HeadingNode) (e : packageIndex) :
    headingEntry sign h = some e ↔
      h.text.startsWith sign = true ∧ h.id = some e.Name ∧
        h.permalinkHref = some e.Path := by
  obtain ⟨eName, ePath⟩ := e
  obtain ⟨tag, text, id, href⟩ := h
  cases id <;> cases href <;> by_cases hs : text.startsWith sign <;>
    simp [headingEntry, hs]

/-- C3: function extraction scans the h2 nodes and the h3 nodes: an entry is
produced exactly from a heading of one of those tags whose text starts with
"func ", with the node id attribute as its name and the nested permalink
href as its path; a node missing either attribute yields nothing. -/
theorem parseFunc_mem_iff (doc : Document) (e : packageIndex) :
    e ∈ ParseFunc doc ↔
      ∃ h, h ∈ doc.headings ∧ (h.tag = "h2" ∨ h.tag = "h3") ∧
        h.text.startsWith "func " = true ∧
        h.id = some e.Name ∧ h.permalinkHref = some e.Path := by
  unfold ParseFunc parseFuncSelectors
  simp only [List.map_cons, List.map_nil, List.flatten_cons, List.flatten_nil,
    List.append_nil, List.mem_append, List.mem_filterMap, Document.find,
    List.mem_filter, headingEntry_eq_some, beq_iff_eq]
  constructor
  · rintro (⟨h, ⟨hmem, htag⟩, hrest⟩ | ⟨h, ⟨hmem, htag⟩, hrest⟩)
    · exact ⟨h, hmem, Or.inl htag, hrest⟩
    · exact ⟨h, hmem, Or.inr htag, hrest⟩
  · rintro ⟨h, hmem, htag | htag, hrest⟩
    · exact Or.inl ⟨h, ⟨hmem, htag⟩, hrest⟩
    · exact Or.inr ⟨h, ⟨hmem, htag⟩, hrest⟩

/-- C4 amended: a listing row is skipped exactly when it has fewer than two
children (the parent navigation row) or its anchor has no href; no check
looks at the path text, so a path containing a template placeholder is
downloaded or descended into like any other. -/
theorem entryAction_skip_iff (host relPath : String) (selection : DirEntry) :
    entryAction host relPath selection = EntryAction.skip ↔
      (selection.childrenCount < 2 ∨ selection.href = none) := by
  obtain ⟨n, href⟩ := selection
  by_cases hn : n < 2
  · simp [entryAction, hn]
  · cases href with
    | none => simp [entryAction, hn]
    | some h =>
      by_cases hs : hasSuffix h ".css" || hasSuffix h ".js"
      · simp [entryAction, hn, hs]
      · simp [entryAction, hn, hs]

/-- A server whose asset root lists one stylesheet row whose name is an
unexpanded template placeholder. -/
def templateServer : AssetServer := fun url =>
  if url = "http://h/lib/godoc/" then some [⟨2, some "\x7b\x7bfoo.css"⟩] else none

/-- C4 counterexample: the listing row whose path contains the literal
placeholder marker is not skipped; its URL is requested and the file is
written, refuting the claim that such entries are never fetched. -/
theorem grabDirectory_fetches_template_path :
    containsSeq "\x7b\x7bfoo.css" "\x7b\x7b" = true ∧
    (grabDirectory templateServer 2 "http://h" "lib/godoc/").1 =
      ["http://h/lib/godoc/", "http://h/lib/godoc/\x7b\x7bfoo.css"] ∧
    (grabDirectory templateServer 2 "http://h" "lib/godoc/").2 =
      ["lib/godoc/\x7b\x7bfoo.css"] := by
  refine ⟨by decide, by decide, by decide⟩

/-- A server with one sub-directory row under the asset root, and a
stylesheet inside that sub-directory. -/
def subdirServer : AssetServer := fun url =>
  if url = "http://h/lib/godoc/" then some [⟨2, some "analysis/"⟩]
  else if url = "http://h/lib/godoc/analysis/" then some [⟨2, some "style.css"⟩]
  else none

/-- C5: descending into a sub-directory row, grabDirectory passes the
absolute url it built as the next relPath argument, so the child listing is
requested at host ++ "/" ++ host ++ "/" ++ relPath ++ href; the correct
child URL host ++ "/" ++ relPath ++ href is never requested and the
sub-tree is never mirrored. -/
theorem grabDirectory_subdir_double_host :
    (grabDirectory subdirServer 3 "http://h" "lib/godoc/").1 =
      ["http://h/lib/godoc/", "http://h/http://h/lib/godoc/analysis/"] ∧
    (grabDirectory subdirServer 3 "http://h" "lib/godoc/").1.contains
      "http://h/lib/godoc/analysis/" = false ∧
    (grabDirectory subdirServer 3 "http://h" "lib/godoc/").2 = [] := by
  refine ⟨by decide, by decide, by decide⟩

/-- C6 counterexample: on the success path of grabPackage both link
rewriting and the mirrored-page write occur, yet each comes strictly before
the extraction step, so extraction does not complete before link rewriting
or before the page write. -/
theorem grabPackage_rewrite_precedes_parse :
    (grabPackageEvents true false).contains GrabEvent.replaceLinksStep = true ∧
    (grabPackageEvents true false).contains GrabEvent.parseStep = true ∧
    (grabPackageEvents true false).indexOf GrabEvent.replaceLinksStep <
      (grabPackageEvents true false).indexOf GrabEvent.parseStep ∧
    (grabPackageEvents true false).indexOf GrabEvent.writeFileStep <
      (grabPackageEvents true false).indexOf GrabEvent.parseStep ∧
    decide ((grabPackageEvents true false).indexOf GrabEvent.parseStep <
      (grabPackageEvents true false).indexOf GrabEvent.replaceLinksStep) = false := by
  decide

/-- C6 amended: within one package, extraction (the Parse step, whose three
sub-scans complete before Parse returns) precedes the index insert whenever
one happens; but link rewriting and the mirrored-page write precede
extraction, not the other way round. -/
theorem grabPackage_event_order (fetchOk hasPkgDir : Bool) :
    ((grabPackageEvents fetchOk hasPkgDir).contains GrabEvent.writeDBStep = false
      ∨ (grabPackageEvents fetchOk hasPkgDir).indexOf GrabEvent.parseStep <
          (grabPackageEvents fetchOk hasPkgDir).indexOf GrabEvent.writeDBStep) ∧
    ((grabPackageEvents fetchOk hasPkgDir).contains GrabEvent.parseStep = false
      ∨ (grabPackageEvents fetchOk hasPkgDir).indexOf GrabEvent.replaceLinksStep <
          (grabPackageEvents fetchOk hasPkgDir).indexOf GrabEvent.parseStep) ∧
    ((grabPackageEvents fetchOk hasPkgDir).contains GrabEvent.parseStep = false
      ∨ (grabPackageEvents fetchOk hasPkgDir).indexOf GrabEvent.writeFileStep <
          (grabPackageEvents fetchOk hasPkgDir).indexOf GrabEvent.parseStep) := by
  cases fetchOk <;> cases hasPkgDir <;> decide

/-- A record with one extracted type symbol, as a concrete crawl input. -/
def sampleInfo : packageInfo :=
  ⟨"example.com/lib", none, [], [], [], [⟨"T", "#T"⟩]⟩

/-- C7 counterexample: a crawl of one package with one symbol issues its
insert, but the database trace contains no commit at all, so the insertions
are not wrapped in one transaction committed exactly once. -/
theorem crawlDBTrace_commit_free :
    (crawlDBTrace [sampleInfo]).countP isExecInsert = 1 ∧
    (crawlDBTrace [sampleInfo]).countP isCommitTx = 0 ∧
    decide ((crawlDBTrace [sampleInfo]).countP isCommitTx = 1) = false := by
  decide

/-- C7 amended: every database call of the crawl is a direct statement
execution; no transaction call, neither begin nor commit, ever appears in
the trace, so each insert takes effect individually on execution. -/
theorem crawlDBTrace_no_transaction (infos : List packageInfo) :
    (crawlDBTrace infos).all (fun e => !isTxEvent e) = true := by
  rw [List.all_eq_true]
  intro e he
  rw [crawlDBTrace, List.mem_append] at he
  rcases he with h1 | h2
  · rw [createDBTrace] at h1
    rcases h1 with _ | ⟨_, _ | ⟨_, h⟩⟩
    · rfl
    · rfl
    · cases h
  · rw [List.mem_flatten] at h2
    obtain ⟨l, hl, hel⟩ := h2
    rw [List.mem_map] at hl
    obtain ⟨info, _, rfl⟩ := hl
    rw [writeDBTrace, List.mem_map] at hel
    obtain ⟨r, _, rfl⟩ := hel
    rfl

/-- C8: index initialization yields an empty table whatever the prior index
file held; and with the unique (name, type, path) anchor index in place,
an INSERT OR IGNORE never errors: in a table where the triple occurs at
most once, inserting it leaves exactly one row with that triple, whether it
conflicted (ignored) or was fresh (appended), and touches no other triple. -/
theorem createDB_fresh_insert_ignore (prior : Option DBState) (st : DBState)
    (r : IndexRow) (hdup : st.rows.count r ≤ 1) :
    (createDB prior).rows = [] ∧
    ∃ st2, execInsertOrIgnore st r = Except.ok st2 ∧
      st2.rows.count r = 1 ∧
      ∀ q, q = r ∨ st2.rows.count q = st.rows.count q := by
  refine ⟨rfl, ?_⟩
  unfold execInsertOrIgnore
  by_cases hr : r ∈ st.rows
  · rw [if_pos hr]
    refine ⟨st, rfl, ?_, fun q => Or.inr rfl⟩
    have h1 : st.rows.count r ≠ 0 := by
      simpa [List.count_eq_zero] using hr
    omega
  · rw [if_neg hr]
    refine ⟨⟨st.rows ++ [r]⟩, rfl, ?_, ?_⟩
    · have h0 : st.rows.count r = 0 := List.count_eq_zero.mpr hr
      rw [List.count_append, h0]
      simp
    · intro q
      rcases eq_or_ne q r with h | h
      · exact Or.inl h
      · refine Or.inr ?_
        have h0 : List.count q [r] = 0 := by
          simp [List.count_eq_zero, h]
        rw [List.count_append, h0]
        simp

/-- Witness for C8 at a concrete one-row table holding the inserted triple. -/
theorem createDB_fresh_insert_ignore_witness :
    (DBState.mk [IndexRow.mk "a.b/c.T" "Type" "pkg/a.b/c/index.html#T"]).rows.count
        (IndexRow.mk "a.b/c.T" "Type" "pkg/a.b/c/index.html#T") ≤ 1 ∧
    ((createDB none).rows = [] ∧
      ∃ st2,
        execInsertOrIgnore
            (DBState.mk [IndexRow.mk "a.b/c.T" "Type" "pkg/a.b/c/index.html#T"])
            (IndexRow.mk "a.b/c.T" "Type" "pkg/a.b/c/index.html#T") = Except.ok st2 ∧
        st2.rows.count (IndexRow.mk "a.b/c.T" "Type" "pkg/a.b/c/index.html#T") = 1 ∧
        ∀ q, q = IndexRow.mk "a.b/c.T" "Type" "pkg/a.b/c/index.html#T" ∨
          st2.rows.count q =
            (DBState.mk [IndexRow.mk "a.b/c.T" "Type" "pkg/a.b/c/index.html#T"]).rows.count q) :=
  ⟨by decide,
    createDB_fresh_insert_ignore none
      (DBState.mk [IndexRow.mk "a.b/c.T" "Type" "pkg/a.b/c/index.html#T"])
      (IndexRow.mk "a.b/c.T" "Type" "pkg/a.b/c/index.html#T") (by decide)⟩
